import Mathlib

/-!
Verification development for the two-party escrow program (src/src/lib.rs).

The Rust source is shallowly embedded: machine integers (u64, u8) become
Nat with explicit bounds where overflow matters, byte buffers become
List Nat, fallible code returns Option or Except, and the imperative
account mutation of each instruction handler is explicit state passing:
each handler maps the incoming account list to a pair of (result, account
list as left behind by the handler), so that an early return leaves the
accounts exactly as they were at that point of the source.

Host-runtime collaborators that are not part of the repository (address
derivation, rent query, account creation, the native transfer primitive)
are modelled from the spec and marked as such in their doc comments.
-/

namespace Escrow

/-- A 32-byte opaque key, as a list of byte values. -/
abbrev Pubkey := List Nat

/-- Byte string b"escrow" (the constant ESCROW_PDA_SEED of the source). -/
def ESCROW_PDA_SEED : List Nat := [101, 115, 99, 114, 111, 119]

/-- Record length 1 + 32 + 32 + 8 + 1 (constant ESCROW_STATE_LEN of the source). -/
def ESCROW_STATE_LEN : Nat := 1 + 32 + 32 + 8 + 1

/-- The persistent escrow record (struct EscrowState of the source). -/
structure EscrowState where
  is_initialized : Bool
  initializer_pubkey : Pubkey
  taker_pubkey : Pubkey
  amount : Nat
  bump : Nat
deriving Repr, DecidableEq

/-- The decoded instruction (enum EscrowInstruction of the source). -/
inductive EscrowInstruction where
  | init (amount : Nat)
  | deposit
  | withdraw
deriving Repr, DecidableEq

/-- Errors the embedded program can surface. Named constructors mirror
solana_program ProgramError variants; Custom carries a host error code. -/
inductive ProgramError where
  | InvalidInstructionData
  | MissingRequiredSignature
  | InvalidSeeds
  | UninitializedAccount
  | InvalidAccountData
  | InsufficientFunds
  | NotEnoughAccountKeys
  | BorshIoError
  | ArithmeticOverflow
  | Custom (code : Nat)
deriving Repr, DecidableEq

/-- One account as seen by a handler: key, signer flag, lamport balance
and data bytes (the fields of AccountInfo the source reads or writes). -/
structure AccountInfo where
  key : Pubkey
  is_signer : Bool
  lamports : Nat
  data : List Nat
deriving Repr, DecidableEq

/-! ## Borsh (de)serialization of the record and the instruction -/

/-- Little-endian bytes of a u64 value. -/
def u64ToLEBytes (n : Nat) : List Nat :=
  [n % 256, n / 2 ^ 8 % 256, n / 2 ^ 16 % 256, n / 2 ^ 24 % 256,
   n / 2 ^ 32 % 256, n / 2 ^ 40 % 256, n / 2 ^ 48 % 256, n / 2 ^ 56 % 256]

/-- Borsh bool field: one byte, 0 or 1; any other byte is a decode error. -/
def parse_bool : List Nat → Option (Bool × List Nat)
  | 0 :: r => some (false, r)
  | 1 :: r => some (true, r)
  | _ => none

/-- Borsh 32-byte key field. -/
def parse_pubkey (bs : List Nat) : Option (Pubkey × List Nat) :=
  if 32 ≤ bs.length then some (bs.take 32, bs.drop 32) else none

/-- Borsh u64 field: 8 little-endian bytes. -/
def parse_u64 : List Nat → Option (Nat × List Nat)
  | b0 :: b1 :: b2 :: b3 :: b4 :: b5 :: b6 :: b7 :: r =>
      some (b0 + 2 ^ 8 * b1 + 2 ^ 16 * b2 + 2 ^ 24 * b3 + 2 ^ 32 * b4 +
            2 ^ 40 * b5 + 2 ^ 48 * b6 + 2 ^ 56 * b7, r)
  | _ => none

/-- Borsh u8 field: one byte. -/
def parse_u8 : List Nat → Option (Nat × List Nat)
  | b :: r => some (b, r)
  | _ => none

/-- Borsh serialization of EscrowState (derive(BorshSerialize) of the
source): bool byte, two 32-byte keys, u64 little-endian, u8. -/
def EscrowState.serialize (s : EscrowState) : List Nat :=
  (if s.is_initialized then [1] else [0]) ++ s.initializer_pubkey ++
    s.taker_pubkey ++ u64ToLEBytes s.amount ++ [s.bump]

/-- Borsh EscrowState.try_from_slice: deserialize each field in order and
require the whole slice to be consumed. -/
def EscrowState.try_from_slice (bs : List Nat) : Option EscrowState :=
  match parse_bool bs with
  | none => none
  | some (ini, r1) =>
    match parse_pubkey r1 with
    | none => none
    | some (ipk, r2) =>
      match parse_pubkey r2 with
      | none => none
      | some (tpk, r3) =>
        match parse_u64 r3 with
        | none => none
        | some (amt, r4) =>
          match parse_u8 r4 with
          | none => none
          | some (bp, r5) =>
            if r5 = [] then some ⟨ini, ipk, tpk, amt, bp⟩ else none

/-- Borsh EscrowInstruction.try_from_slice: 1-byte enum discriminant
(0 = Initialize, 1 = Deposit, 2 = Withdraw), then the variant fields
(Initialize: a u64 amount; the others: nothing), then the whole slice
must be consumed. -/
def EscrowInstruction.try_from_slice (bs : List Nat) : Option EscrowInstruction :=
  match bs with
  | 0 :: rest =>
    match parse_u64 rest with
    | some (amount, r) => if r = [] then some (.init amount) else none
    | none => none
  | 1 :: rest => if rest = [] then some .deposit else none
  | 2 :: rest => if rest = [] then some .withdraw else none
  | _ => none

/-! ## Checked u64 arithmetic -/

/-- u64 checked_sub: none exactly on underflow. -/
def checked_sub (a b : Nat) : Option Nat :=
  if a < b then none else some (a - b)

/-- u64 checked_add: none exactly when the true sum does not fit in 64
bits (operands are u64 values, hence themselves below 2 ^ 64). -/
def checked_add (a b : Nat) : Option Nat :=
  if a + b < 2 ^ 64 then some (a + b) else none

/-! ## Host collaborators, modelled from the spec -/

/-- Little-endian 32-byte image of a 256-bit number. -/
def natToLEBytes32 (n : Nat) : List Nat :=
  (List.range 32).map fun i => n / 2 ^ (8 * i) % 256

/-- Modelled from the spec: the collision-resistant keyed hash underlying
address derivation (solana_program Pubkey.find_program_address is host
library code, absent from src/; the spec allows any deterministic keyed
hash with a validity predicate). -/
def keyed_hash (data : List Nat) : Nat :=
  data.foldl (fun h b => (h * 131 + b + 1) % 2 ^ 256) 7

/-- Modelled from the spec: the candidate address for one disambiguator
value, hashing the seeds, the bump byte and the program identity. -/
def derive_candidate (seeds : List (List Nat)) (program_id : Pubkey) (bump : Nat) : Pubkey :=
  natToLEBytes32 (keyed_hash (seeds.flatten ++ [bump] ++ program_id))

/-- Modelled from the spec: the validity (off-curve) predicate on a
candidate address. -/
def is_off_curve (a : Pubkey) : Bool := a.headD 0 % 2 == 0

/-- Modelled from the spec: bounded disambiguator search, trying bump
values downward from the fuel and keeping the first valid candidate. -/
def find_bump (seeds : List (List Nat)) (program_id : Pubkey) : Nat → Pubkey × Nat
  | 0 => (derive_candidate seeds program_id 0, 0)
  | n + 1 =>
    let c := derive_candidate seeds program_id (n + 1)
    if is_off_curve c then (c, n + 1) else find_bump seeds program_id n

/-- Modelled from the spec: Pubkey.find_program_address — deterministic
derivation of (address, bump) from seeds and the program identity,
searching the disambiguator space 255 downward as the host does. -/
def find_program_address (seeds : List (List Nat)) (program_id : Pubkey) : Pubkey × Nat :=
  find_bump seeds program_id 255

/-- Modelled from the spec: the host rent query Rent.minimum_balance for
an account of the given byte size. -/
def rent_minimum_balance (size : Nat) : Nat := (128 + size) * 6960

/-- Modelled from the spec: the host system_instruction.create_account
invoked under the seed capability — fails if the target account is
already in use or the funder cannot pay; on success moves the requested
lamports from the funder and gives the new account a zeroed buffer of
the requested size. -/
def create_account (funder newAccount : AccountInfo) (lamports space : Nat) :
    Except ProgramError (AccountInfo × AccountInfo) :=
  if newAccount.lamports ≠ 0 ∨ newAccount.data ≠ [] then .error (.Custom 0)
  else if funder.lamports < lamports then .error (.Custom 1)
  else .ok ({ funder with lamports := funder.lamports - lamports },
            { newAccount with lamports := lamports, data := List.replicate space 0 })

/-- Modelled from the spec: the host native value-transfer primitive
(system_instruction.transfer) — fails if the source balance is
insufficient or the destination balance would overflow u64; any failure
propagates unmodified and moves nothing. -/
def system_transfer (fromLamports toLamports amount : Nat) :
    Except ProgramError (Nat × Nat) :=
  if fromLamports < amount then .error (.Custom 1)
  else if 2 ^ 64 ≤ toLamports + amount then .error .ArithmeticOverflow
  else .ok (fromLamports - amount, toLamports + amount)

/-- Borsh serialize into a fixed buffer: fails when the buffer is too
small, otherwise overwrites its prefix and keeps the remaining bytes. -/
def serialize_into (s : EscrowState) (buf : List Nat) : Option (List Nat) :=
  if s.serialize.length ≤ buf.length
  then some (s.serialize ++ buf.drop s.serialize.length)
  else none

/-! ## Instruction handlers (from the source)

Each handler returns (result, accounts as the handler leaves them): an
early error return leaves every account untouched up to that point,
matching the source, where all balance writes happen after all checks. -/

/-- Embedding of process_initialize_run: signer check, address derivation and
InvalidSeeds check, rent query, create_account under the seed capability,
then serialization of the fresh record into the new account. -/
def process_initialize_run (program_id : Pubkey) (accounts : List AccountInfo)
    (amount : Nat) : Except ProgramError Unit × List AccountInfo :=
  match accounts with
  | initializer :: taker :: escrow_account :: system_program :: rest =>
    if !initializer.is_signer then (.error .MissingRequiredSignature, accounts)
    else
      let pb := find_program_address [ESCROW_PDA_SEED, initializer.key] program_id
      if pb.1 ≠ escrow_account.key then (.error .InvalidSeeds, accounts)
      else
        let lamports_req := rent_minimum_balance ESCROW_STATE_LEN
        match create_account initializer escrow_account lamports_req ESCROW_STATE_LEN with
        | .error e => (.error e, accounts)
        | .ok (initializer2, escrow2) =>
          let escrow_state : EscrowState :=
            ⟨true, initializer.key, taker.key, amount, pb.2⟩
          match serialize_into escrow_state escrow2.data with
          | none => (.error .BorshIoError,
                     initializer2 :: taker :: escrow2 :: system_program :: rest)
          | some data2 =>
            (.ok (), initializer2 :: taker :: { escrow2 with data := data2 } ::
                     system_program :: rest)
  | _ => (.error .NotEnoughAccountKeys, accounts)

/-- Embedding of process_deposit: signer checks, record decode (decode
failure propagates as BorshIoError), initialization and identity checks,
then the host transfer of the stored amount from the initializer to the
escrow account. No address derivation check appears in the source. -/
def process_deposit (program_id : Pubkey) (accounts : List AccountInfo) :
    Except ProgramError Unit × List AccountInfo :=
  match accounts with
  | initializer :: taker :: escrow_account :: system_program :: rest =>
    if !initializer.is_signer || !taker.is_signer then
      (.error .MissingRequiredSignature, accounts)
    else
      match EscrowState.try_from_slice escrow_account.data with
      | none => (.error .BorshIoError, accounts)
      | some escrow_state =>
        if !escrow_state.is_initialized then (.error .UninitializedAccount, accounts)
        else if escrow_state.initializer_pubkey ≠ initializer.key ∨
                escrow_state.taker_pubkey ≠ taker.key then
          (.error .InvalidAccountData, accounts)
        else
          match system_transfer initializer.lamports escrow_account.lamports
                  escrow_state.amount with
          | .error e => (.error e, accounts)
          | .ok (fromLamports, toLamports) =>
            (.ok (), { initializer with lamports := fromLamports } :: taker ::
                     { escrow_account with lamports := toLamports } ::
                     system_program :: rest)
  | _ => (.error .NotEnoughAccountKeys, accounts)

/-- Embedding of process_withdraw: signer checks, record decode (decode
failure propagates as BorshIoError), initialization and identity checks,
address derivation and InvalidSeeds check, then checked debit of the
escrow balance and checked credit of the taker balance, both computed
before either balance is written. -/
def process_withdraw (program_id : Pubkey) (accounts : List AccountInfo) :
    Except ProgramError Unit × List AccountInfo :=
  match accounts with
  | initializer :: taker :: escrow_account :: rest =>
    if !initializer.is_signer || !taker.is_signer then
      (.error .MissingRequiredSignature, accounts)
    else
      match EscrowState.try_from_slice escrow_account.data with
      | none => (.error .BorshIoError, accounts)
      | some escrow_state =>
        if !escrow_state.is_initialized then (.error .UninitializedAccount, accounts)
        else if escrow_state.initializer_pubkey ≠ initializer.key ∨
                escrow_state.taker_pubkey ≠ taker.key then
          (.error .InvalidAccountData, accounts)
        else
          let pb := find_program_address [ESCROW_PDA_SEED, initializer.key] program_id
          if pb.1 ≠ escrow_account.key then (.error .InvalidSeeds, accounts)
          else
            match checked_sub escrow_account.lamports escrow_state.amount with
            | none => (.error .InsufficientFunds, accounts)
            | some new_escrow =>
              match checked_add taker.lamports escrow_state.amount with
              | none => (.error .InvalidAccountData, accounts)
              | some new_taker =>
                (.ok (), initializer :: { taker with lamports := new_taker } ::
                         { escrow_account with lamports := new_escrow } :: rest)
  | _ => (.error .NotEnoughAccountKeys, accounts)

/-- Embedding of process_instruction: decode the input (any failure
becomes InvalidInstructionData) and dispatch to the matching handler. -/
def process_instruction (program_id : Pubkey) (accounts : List AccountInfo)
    (input : List Nat) : Except ProgramError Unit × List AccountInfo :=
  match EscrowInstruction.try_from_slice input with
  | none => (.error .InvalidInstructionData, accounts)
  | some (.init amount) => process_initialize_run program_id accounts amount
  | some .deposit => process_deposit program_id accounts
  | some .withdraw => process_withdraw program_id accounts

/-! ## The tagged-union instruction encoding stated by the spec -/

/-- The instruction wire encoding as the source serializes it: 1-byte
discriminant, then the variant fields (Initialize: 8-byte little-endian
amount; Deposit and Withdraw: nothing). -/
def encode_instruction : EscrowInstruction → List Nat
  | .init a => 0 :: u64ToLEBytes a
  | .deposit => [1]
  | .withdraw => [2]

/-! ## Concrete fixtures used by witnesses and counterexamples -/

/-- A concrete program identity. -/
def pidW : Pubkey := List.replicate 32 7

/-- A concrete initializer key. -/
def keyI : Pubkey := List.replicate 32 1

/-- A concrete taker key. -/
def keyT : Pubkey := List.replicate 32 2

/-- A concrete address that is not the derivation result for keyI. -/
def keyX : Pubkey := List.replicate 32 9

/-- A concrete third-party key different from keyI and keyT. -/
def keyZ : Pubkey := List.replicate 32 4

/-- A concrete stored escrow record for keyI and keyT with amount 100. -/
def recW : EscrowState := ⟨true, keyI, keyT, 100, 3⟩

/-- A concrete initializer account. -/
def initW : AccountInfo := ⟨keyI, true, 1000, []⟩

/-- A concrete taker account. -/
def takerW : AccountInfo := ⟨keyT, true, 50, []⟩

/-- A concrete system-program account. -/
def sysW : AccountInfo := ⟨List.replicate 32 0, false, 1, []⟩

/-- A concrete escrow account holding recW at the wrong address keyX. -/
def escrowAtX : AccountInfo := ⟨keyX, false, 5, recW.serialize⟩

/-- The derived escrow address for (pidW, keyI). -/
def pdaW : Pubkey := (find_program_address [ESCROW_PDA_SEED, keyI] pidW).1

/-- A concrete escrow account at the derived address holding recW with a
balance of 150 lamports. -/
def escrowRich : AccountInfo := ⟨pdaW, false, 150, recW.serialize⟩

/-- A concrete escrow account at the derived address holding recW with a
balance below the stored amount. -/
def escrowPoor : AccountInfo := ⟨pdaW, false, 40, recW.serialize⟩

/-- A concrete escrow account at the derived address with undecodable
record bytes. -/
def escrowGarbled : AccountInfo := ⟨pdaW, false, 40, [1, 2, 3]⟩

/-- A concrete empty escrow account at the derived address, ready for
Initialize. -/
def escrowFresh : AccountInfo := ⟨pdaW, false, 0, []⟩

/-- A concrete initializer account rich enough to fund creation. -/
def initRich : AccountInfo := ⟨keyI, true, 2000000, []⟩

/-- Decidable equality of results, used by concrete evaluations. -/
instance {e a : Type} [DecidableEq e] [DecidableEq a] : DecidableEq (Except e a) := fun x y =>
  match x, y with
  | .ok u, .ok v =>
    if h : u = v then isTrue (congrArg Except.ok h)
    else isFalse fun c => h (Except.ok.inj c)
  | .error u, .error v =>
    if h : u = v then isTrue (congrArg Except.error h)
    else isFalse fun c => h (Except.error.inj c)
  | .ok _, .error _ => isFalse fun c => Except.noConfusion c
  | .error _, .ok _ => isFalse fun c => Except.noConfusion c

/-! ## Serialization lemmas -/

theorem parse_pubkey_append (k r : List Nat) (h : k.length = 32) :
    parse_pubkey (k ++ r) = some (k, r) := by
  unfold parse_pubkey
  rw [if_pos]
  · rw [← h, List.take_left, List.drop_left]
  · simp [h]

theorem parse_u64_append (a : Nat) (r : List Nat) (h : a < 2 ^ 64) :
    parse_u64 (u64ToLEBytes a ++ r) = some (a, r) := by
  simp only [u64ToLEBytes, List.cons_append, List.nil_append, parse_u64,
    Option.some.injEq, Prod.mk.injEq, and_true]
  norm_num
  omega

theorem u64ToLEBytes_sum (b0 b1 b2 b3 b4 b5 b6 b7 : Nat)
    (h0 : b0 < 256) (h1 : b1 < 256) (h2 : b2 < 256) (h3 : b3 < 256)
    (h4 : b4 < 256) (h5 : b5 < 256) (h6 : b6 < 256) (h7 : b7 < 256) :
    u64ToLEBytes (b0 + 2 ^ 8 * b1 + 2 ^ 16 * b2 + 2 ^ 24 * b3 + 2 ^ 32 * b4 +
      2 ^ 40 * b5 + 2 ^ 48 * b6 + 2 ^ 56 * b7) = [b0, b1, b2, b3, b4, b5, b6, b7] := by
  simp only [u64ToLEBytes, List.cons.injEq, and_true]
  norm_num
  refine ⟨?_, ?_, ?_, ?_, ?_, ?_, ?_, ?_⟩ <;> omega

theorem try_from_slice_serialize (s : EscrowState)
    (hi : s.initializer_pubkey.length = 32) (ht : s.taker_pubkey.length = 32)
    (ha : s.amount < 2 ^ 64) :
    EscrowState.try_from_slice s.serialize = some s := by
  rcases s with ⟨ini, ipk, tpk, amt, bp⟩
  simp only at hi ht ha
  unfold EscrowState.serialize EscrowState.try_from_slice
  cases ini <;>
    simp [List.append_assoc, parse_bool, parse_u8,
      parse_pubkey_append _ _ hi, parse_pubkey_append _ _ ht, parse_u64_append _ _ ha]


/-- C7: decoding the 74-byte encoding of a valid record yields the record
back unchanged. -/
theorem C7_record_roundtrip (s : EscrowState)
    (hi : s.initializer_pubkey.length = 32) (ht : s.taker_pubkey.length = 32)
    (ha : s.amount < 2 ^ 64) (hb : s.bump < 256) :
    EscrowState.try_from_slice s.serialize = some s :=
  try_from_slice_serialize s hi ht ha

/-- C7 witness at a concrete record. -/
theorem C7_record_roundtrip_witness :
    EscrowState.try_from_slice (EscrowState.serialize ⟨true, keyI, keyT, 100, 3⟩) =
      some ⟨true, keyI, keyT, 100, 3⟩ :=
  C7_record_roundtrip ⟨true, keyI, keyT, 100, 3⟩ (by decide) (by decide)
    (by norm_num) (by decide)

set_option maxRecDepth 8000 in
/-- C1 counterexample: a concrete Deposit whose supplied escrow address is
not the derivation result, yet the call succeeds instead of failing with
InvalidSeeds. -/
theorem C1_deposit_no_seeds_check :
    (find_program_address [ESCROW_PDA_SEED, keyI] pidW).1 ≠ escrowAtX.key ∧
    (process_deposit pidW [initW, takerW, escrowAtX, sysW]).1 = .ok () := by
  refine ⟨by decide, by decide⟩


/-- C1 amended: Initialize and Withdraw derive the escrow address and fail
with InvalidSeeds on mismatch; Deposit has no such check. -/
theorem C1_amended_seeds_check :
    (∀ (pid : Pubkey) (i t e sp : AccountInfo) (rest : List AccountInfo) (amount : Nat),
      i.is_signer = true →
      (find_program_address [ESCROW_PDA_SEED, i.key] pid).1 ≠ e.key →
      process_initialize_run pid (i :: t :: e :: sp :: rest) amount =
        (.error .InvalidSeeds, i :: t :: e :: sp :: rest)) ∧
    (∀ (pid : Pubkey) (i t e : AccountInfo) (rest : List AccountInfo) (st : EscrowState),
      i.is_signer = true → t.is_signer = true →
      EscrowState.try_from_slice e.data = some st →
      st.is_initialized = true →
      st.initializer_pubkey = i.key → st.taker_pubkey = t.key →
      (find_program_address [ESCROW_PDA_SEED, i.key] pid).1 ≠ e.key →
      process_withdraw pid (i :: t :: e :: rest) =
        (.error .InvalidSeeds, i :: t :: e :: rest)) := by
  constructor
  · intro pid i t e sp rest amount hsig hpda
    simp [process_initialize_run, hsig, hpda]
  · intro pid i t e rest st hs1 hs2 hdec hini hid1 hid2 hpda
    simp [process_withdraw, hs1, hs2, hdec, hini, hid1, hid2, hpda]

set_option maxRecDepth 8000 in
/-- C1 witness: concrete mismatched addresses for Initialize and Withdraw. -/
theorem C1_amended_seeds_check_witness :
    process_initialize_run pidW [initW, takerW, escrowAtX, sysW] 100 =
      (.error .InvalidSeeds, [initW, takerW, escrowAtX, sysW]) ∧
    process_withdraw pidW [initW, takerW, escrowAtX] =
      (.error .InvalidSeeds, [initW, takerW, escrowAtX]) :=
  ⟨C1_amended_seeds_check.1 pidW initW takerW escrowAtX sysW [] 100 (by decide) (by decide),
   C1_amended_seeds_check.2 pidW initW takerW escrowAtX [] recW (by decide) (by decide)
     (by decide) (by decide) (by decide) (by decide) (by decide)⟩


/-- C2: on a Withdraw that reaches the balance-transfer step, the checked
debit fails with InsufficientFunds exactly when the escrow balance is
below the stored amount, the checked credit fails with InvalidAccountData
exactly when the taker balance plus the amount overflows u64, and a
successful transfer produces exact, unwrapped balances. -/
theorem C2_withdraw_checked_arithmetic (pid : Pubkey) (i t e : AccountInfo)
    (rest : List AccountInfo) (st : EscrowState)
    (hs1 : i.is_signer = true) (hs2 : t.is_signer = true)
    (hdec : EscrowState.try_from_slice e.data = some st)
    (hini : st.is_initialized = true)
    (hid1 : st.initializer_pubkey = i.key) (hid2 : st.taker_pubkey = t.key)
    (hpda : (find_program_address [ESCROW_PDA_SEED, i.key] pid).1 = e.key)
    (he64 : e.lamports < 2 ^ 64) :
    (e.lamports < st.amount →
      process_withdraw pid (i :: t :: e :: rest) =
        (.error .InsufficientFunds, i :: t :: e :: rest)) ∧
    (st.amount ≤ e.lamports → 2 ^ 64 ≤ t.lamports + st.amount →
      process_withdraw pid (i :: t :: e :: rest) =
        (.error .InvalidAccountData, i :: t :: e :: rest)) ∧
    (st.amount ≤ e.lamports → t.lamports + st.amount < 2 ^ 64 →
      process_withdraw pid (i :: t :: e :: rest) =
        (.ok (), i :: { t with lamports := t.lamports + st.amount } ::
                 { e with lamports := e.lamports - st.amount } :: rest) ∧
      e.lamports - st.amount < 2 ^ 64 ∧ t.lamports + st.amount < 2 ^ 64) := by
  refine ⟨?_, ?_, ?_⟩
  · intro hlt
    simp [process_withdraw, checked_sub, hs1, hs2, hdec, hini, hid1, hid2, hpda, hlt]
  · intro hge hov
    have hub : ¬ (t.lamports + st.amount < 18446744073709551616) := by omega
    simp [process_withdraw, checked_sub, checked_add, hs1, hs2, hdec, hini, hid1,
      hid2, hpda, Nat.not_lt.mpr hge, hub]
  · intro hge hov
    have hub : t.lamports + st.amount < 18446744073709551616 := by omega
    refine ⟨?_, by omega, hov⟩
    simp [process_withdraw, checked_sub, checked_add, hs1, hs2, hdec, hini, hid1,
      hid2, hpda, Nat.not_lt.mpr hge, hub]

set_option maxRecDepth 8000 in
/-- C2 witness: a concrete Withdraw on an escrow balance below the stored
amount fails with InsufficientFunds. -/
theorem C2_withdraw_checked_arithmetic_witness :
    process_withdraw pidW [initW, takerW, escrowPoor] =
      (.error .InsufficientFunds, [initW, takerW, escrowPoor]) :=
  (C2_withdraw_checked_arithmetic pidW initW takerW escrowPoor [] recW (by decide)
    (by decide) (by decide) (by decide) (by decide) (by decide) (by decide)
    (by norm_num [escrowPoor])).1 (by norm_num [escrowPoor, recW])


/-- C8: when a first Withdraw succeeds and leaves the escrow balance below
the stored amount, a second Withdraw with the same parties fails with
InsufficientFunds and changes no balance. -/
theorem C8_double_withdraw (pid : Pubkey) (i t e : AccountInfo)
    (rest : List AccountInfo) (st : EscrowState)
    (hs1 : i.is_signer = true) (hs2 : t.is_signer = true)
    (hdec : EscrowState.try_from_slice e.data = some st)
    (hini : st.is_initialized = true)
    (hid1 : st.initializer_pubkey = i.key) (hid2 : st.taker_pubkey = t.key)
    (hpda : (find_program_address [ESCROW_PDA_SEED, i.key] pid).1 = e.key)
    (hge : st.amount ≤ e.lamports) (hov : t.lamports + st.amount < 2 ^ 64)
    (hdr : e.lamports < 2 * st.amount) :
    process_withdraw pid (i :: t :: e :: rest) =
      (.ok (), i :: { t with lamports := t.lamports + st.amount } ::
               { e with lamports := e.lamports - st.amount } :: rest) ∧
    process_withdraw pid (i :: { t with lamports := t.lamports + st.amount } ::
        { e with lamports := e.lamports - st.amount } :: rest) =
      (.error .InsufficientFunds,
       i :: { t with lamports := t.lamports + st.amount } ::
            { e with lamports := e.lamports - st.amount } :: rest) := by
  have hub : t.lamports + st.amount < 18446744073709551616 := by omega
  constructor
  · simp [process_withdraw, checked_sub, checked_add, hs1, hs2, hdec, hini, hid1,
      hid2, hpda, Nat.not_lt.mpr hge, hub]
  · have hlt : e.lamports - st.amount < st.amount := by omega
    simp [process_withdraw, checked_sub, checked_add, hs1, hs2, hdec, hini, hid1,
      hid2, hpda, hlt]

set_option maxRecDepth 8000 in
/-- C8 witness: escrow balance 150 with stored amount 100 — the first
Withdraw succeeds, the second fails with InsufficientFunds. -/
theorem C8_double_withdraw_witness :
    process_withdraw pidW [initW, takerW, escrowRich] =
      (.ok (), [initW, { takerW with lamports := takerW.lamports + recW.amount },
                { escrowRich with lamports := escrowRich.lamports - recW.amount }]) ∧
    process_withdraw pidW
        [initW, { takerW with lamports := takerW.lamports + recW.amount },
         { escrowRich with lamports := escrowRich.lamports - recW.amount }] =
      (.error .InsufficientFunds,
       [initW, { takerW with lamports := takerW.lamports + recW.amount },
        { escrowRich with lamports := escrowRich.lamports - recW.amount }]) :=
  C8_double_withdraw pidW initW takerW escrowRich [] recW (by decide) (by decide)
    (by decide) (by decide) (by decide) (by decide) (by decide)
    (by norm_num [escrowRich, recW]) (by norm_num [takerW, recW])
    (by norm_num [escrowRich, recW])

/-- C6: a Deposit or Withdraw on an initialized record whose stored
identities differ from the supplied initializer or taker fails with
InvalidAccountData and leaves every account unchanged. -/
theorem C6_identity_mismatch :
    (∀ (pid : Pubkey) (i t e sp : AccountInfo) (rest : List AccountInfo) (st : EscrowState),
      i.is_signer = true → t.is_signer = true →
      EscrowState.try_from_slice e.data = some st →
      st.is_initialized = true →
      (st.initializer_pubkey ≠ i.key ∨ st.taker_pubkey ≠ t.key) →
      process_deposit pid (i :: t :: e :: sp :: rest) =
        (.error .InvalidAccountData, i :: t :: e :: sp :: rest)) ∧
    (∀ (pid : Pubkey) (i t e : AccountInfo) (rest : List AccountInfo) (st : EscrowState),
      i.is_signer = true → t.is_signer = true →
      EscrowState.try_from_slice e.data = some st →
      st.is_initialized = true →
      (st.initializer_pubkey ≠ i.key ∨ st.taker_pubkey ≠ t.key) →
      process_withdraw pid (i :: t :: e :: rest) =
        (.error .InvalidAccountData, i :: t :: e :: rest)) := by
  constructor
  · intro pid i t e sp rest st hs1 hs2 hdec hini hmis
    simp [process_deposit, hs1, hs2, hdec, hini, hmis]
  · intro pid i t e rest st hs1 hs2 hdec hini hmis
    simp [process_withdraw, hs1, hs2, hdec, hini, hmis]

set_option maxRecDepth 8000 in
/-- C6 witness: a third party keyZ in place of the stored taker makes both
Deposit and Withdraw fail with InvalidAccountData. -/
theorem C6_identity_mismatch_witness :
    process_deposit pidW [initW, ⟨keyZ, true, 50, []⟩, escrowRich, sysW] =
      (.error .InvalidAccountData, [initW, ⟨keyZ, true, 50, []⟩, escrowRich, sysW]) ∧
    process_withdraw pidW [initW, ⟨keyZ, true, 50, []⟩, escrowRich] =
      (.error .InvalidAccountData, [initW, ⟨keyZ, true, 50, []⟩, escrowRich]) :=
  ⟨C6_identity_mismatch.1 pidW initW ⟨keyZ, true, 50, []⟩ escrowRich sysW [] recW
     (by decide) (by decide) (by decide) (by decide) (by decide),
   C6_identity_mismatch.2 pidW initW ⟨keyZ, true, 50, []⟩ escrowRich [] recW
     (by decide) (by decide) (by decide) (by decide) (by decide)⟩


set_option maxRecDepth 8000 in
/-- C3 counterexample: undecodable record bytes make Deposit fail with
BorshIoError, not InvalidAccountData as claimed. -/
theorem C3_decode_failure_error_kind :
    EscrowState.try_from_slice escrowGarbled.data = none ∧
    (process_deposit pidW [initW, takerW, escrowGarbled, sysW]).1 =
      .error .BorshIoError ∧
    (process_deposit pidW [initW, takerW, escrowGarbled, sysW]).1 ≠
      .error .InvalidAccountData := by
  refine ⟨by decide, by decide, by decide⟩

/-- C3 amended: on Deposit and Withdraw, a record decoding to
is_initialized = false fails with UninitializedAccount, and bytes that do
not decode as a record fail with BorshIoError. -/
theorem C3_amended_read_errors :
    (∀ (pid : Pubkey) (i t e sp : AccountInfo) (rest : List AccountInfo),
      i.is_signer = true → t.is_signer = true →
      (∀ st, EscrowState.try_from_slice e.data = some st →
        st.is_initialized = false →
        process_deposit pid (i :: t :: e :: sp :: rest) =
          (.error .UninitializedAccount, i :: t :: e :: sp :: rest)) ∧
      (EscrowState.try_from_slice e.data = none →
        process_deposit pid (i :: t :: e :: sp :: rest) =
          (.error .BorshIoError, i :: t :: e :: sp :: rest))) ∧
    (∀ (pid : Pubkey) (i t e : AccountInfo) (rest : List AccountInfo),
      i.is_signer = true → t.is_signer = true →
      (∀ st, EscrowState.try_from_slice e.data = some st →
        st.is_initialized = false →
        process_withdraw pid (i :: t :: e :: rest) =
          (.error .UninitializedAccount, i :: t :: e :: rest)) ∧
      (EscrowState.try_from_slice e.data = none →
        process_withdraw pid (i :: t :: e :: rest) =
          (.error .BorshIoError, i :: t :: e :: rest))) := by
  constructor
  · intro pid i t e sp rest hs1 hs2
    constructor
    · intro st hdec hini
      simp [process_deposit, hs1, hs2, hdec, hini]
    · intro hdec
      simp [process_deposit, hs1, hs2, hdec]
  · intro pid i t e rest hs1 hs2
    constructor
    · intro st hdec hini
      simp [process_withdraw, hs1, hs2, hdec, hini]
    · intro hdec
      simp [process_withdraw, hs1, hs2, hdec]

set_option maxRecDepth 8000 in
/-- C3 witness: an all-zero 74-byte record is uninitialized and garbled
bytes do not decode; Deposit and Withdraw answer accordingly. -/
theorem C3_amended_read_errors_witness :
    process_deposit pidW [initW, takerW, ⟨pdaW, false, 40, List.replicate 74 0⟩, sysW] =
      (.error .UninitializedAccount,
       [initW, takerW, ⟨pdaW, false, 40, List.replicate 74 0⟩, sysW]) ∧
    process_withdraw pidW [initW, takerW, escrowGarbled] =
      (.error .BorshIoError, [initW, takerW, escrowGarbled]) :=
  ⟨((C3_amended_read_errors.1 pidW initW takerW ⟨pdaW, false, 40, List.replicate 74 0⟩
      sysW [] (by decide) (by decide)).1 ⟨false, List.replicate 32 0, List.replicate 32 0, 0, 0⟩
      (by decide) (by decide)),
   ((C3_amended_read_errors.2 pidW initW takerW escrowGarbled [] (by decide)
      (by decide)).2 (by decide))⟩


/-- C9: Deposit and Withdraw never touch account keys, data bytes or
signer flags — whatever the outcome, only lamport balances can change, so
the escrow record bytes written at Initialize persist unchanged. -/
theorem C9_record_bytes_frame (pid : Pubkey) (accounts : List AccountInfo) :
    ((process_deposit pid accounts).2).map (fun a => (a.key, a.data, a.is_signer)) =
      accounts.map (fun a => (a.key, a.data, a.is_signer)) ∧
    ((process_withdraw pid accounts).2).map (fun a => (a.key, a.data, a.is_signer)) =
      accounts.map (fun a => (a.key, a.data, a.is_signer)) := by
  constructor
  · rcases accounts with _ | ⟨i, _ | ⟨t, _ | ⟨e, _ | ⟨sp, rest⟩⟩⟩⟩ <;>
      simp only [process_deposit] <;>
      (repeat' split) <;> simp
  · rcases accounts with _ | ⟨i, _ | ⟨t, _ | ⟨e, rest⟩⟩⟩ <;>
      simp only [process_withdraw] <;>
      (repeat' split) <;> simp

/-- C10: whenever Withdraw returns an error, both checked results were
computed before any write, so neither the escrow nor the taker balance
(nor any other account) has been modified. -/
theorem C10_withdraw_error_atomic (pid : Pubkey) (accounts : List AccountInfo)
    (err : ProgramError)
    (h : (process_withdraw pid accounts).1 = .error err) :
    (process_withdraw pid accounts).2 = accounts := by
  rcases hok : process_withdraw pid accounts with ⟨r, accounts2⟩
  rw [hok] at h
  simp only at h ⊢
  subst h
  rcases accounts with _ | ⟨i, _ | ⟨t, _ | ⟨e, rest⟩⟩⟩ <;>
    [skip; skip; skip;
     (simp only [process_withdraw] at hok; revert hok; (repeat' split) <;>
       (intro hok; injection hok with h1 h2; first | exact h2.symm | cases h1))] <;>
    (injection hok with h1 h2; exact h2.symm)


/-- C4 counterexample: the claimed optional trailing seed byte after an
Initialize payload is rejected by the decoder — the whole instruction
fails with InvalidInstructionData. -/
theorem C4_seed_byte_rejected :
    EscrowInstruction.try_from_slice [0, 1, 0, 0, 0, 0, 0, 0, 0, 5] = none ∧
    process_instruction pidW [initW, takerW, escrowAtX, sysW]
        [0, 1, 0, 0, 0, 0, 0, 0, 0, 5] =
      (.error .InvalidInstructionData, [initW, takerW, escrowAtX, sysW]) := by
  refine ⟨rfl, rfl⟩

/-- C4 amended: the decoder accepts exactly the tagged-union encoding with
no optional seed byte — discriminant 0 plus an 8-byte little-endian
amount, or a bare discriminant 1 or 2 — and any other byte sequence makes
process_instruction fail with InvalidInstructionData, leaving the
accounts untouched. -/
theorem C4_instruction_decoder_total (bs : List Nat) (hb : ∀ b ∈ bs, b < 256) :
    (∃ i, EscrowInstruction.try_from_slice bs = some i ∧ encode_instruction i = bs) ∨
    (EscrowInstruction.try_from_slice bs = none ∧
     ∀ (pid : Pubkey) (accounts : List AccountInfo),
       process_instruction pid accounts bs =
         (.error .InvalidInstructionData, accounts)) := by
  rcases bs with _ | ⟨b, rest⟩
  · exact .inr ⟨rfl, fun pid accounts => rfl⟩
  rcases b with _ | b
  · -- discriminant 0: Initialize
    rcases rest with _ | ⟨b0, rest⟩
    · exact .inr ⟨rfl, fun pid accounts => rfl⟩
    rcases rest with _ | ⟨b1, rest⟩
    · exact .inr ⟨rfl, fun pid accounts => rfl⟩
    rcases rest with _ | ⟨b2, rest⟩
    · exact .inr ⟨rfl, fun pid accounts => rfl⟩
    rcases rest with _ | ⟨b3, rest⟩
    · exact .inr ⟨rfl, fun pid accounts => rfl⟩
    rcases rest with _ | ⟨b4, rest⟩
    · exact .inr ⟨rfl, fun pid accounts => rfl⟩
    rcases rest with _ | ⟨b5, rest⟩
    · exact .inr ⟨rfl, fun pid accounts => rfl⟩
    rcases rest with _ | ⟨b6, rest⟩
    · exact .inr ⟨rfl, fun pid accounts => rfl⟩
    rcases rest with _ | ⟨b7, rest⟩
    · exact .inr ⟨rfl, fun pid accounts => rfl⟩
    rcases rest with _ | ⟨x, r⟩
    · refine .inl ⟨.init (b0 + 2 ^ 8 * b1 + 2 ^ 16 * b2 + 2 ^ 24 * b3 +
        2 ^ 32 * b4 + 2 ^ 40 * b5 + 2 ^ 48 * b6 + 2 ^ 56 * b7), rfl, ?_⟩
      have h : u64ToLEBytes (b0 + 2 ^ 8 * b1 + 2 ^ 16 * b2 + 2 ^ 24 * b3 +
          2 ^ 32 * b4 + 2 ^ 40 * b5 + 2 ^ 48 * b6 + 2 ^ 56 * b7) =
          [b0, b1, b2, b3, b4, b5, b6, b7] :=
        u64ToLEBytes_sum b0 b1 b2 b3 b4 b5 b6 b7
          (hb b0 (by simp)) (hb b1 (by simp)) (hb b2 (by simp)) (hb b3 (by simp))
          (hb b4 (by simp)) (hb b5 (by simp)) (hb b6 (by simp)) (hb b7 (by simp))
      simp only [encode_instruction]
      rw [h]
    · exact .inr ⟨rfl, fun pid accounts => rfl⟩
  rcases b with _ | b
  · -- discriminant 1: Deposit
    rcases rest with _ | ⟨x, r⟩
    · exact .inl ⟨.deposit, rfl, rfl⟩
    · exact .inr ⟨rfl, fun pid accounts => rfl⟩
  rcases b with _ | b
  · -- discriminant 2: Withdraw
    rcases rest with _ | ⟨x, r⟩
    · exact .inl ⟨.withdraw, rfl, rfl⟩
    · exact .inr ⟨rfl, fun pid accounts => rfl⟩
  · -- discriminant 3 or above
    exact .inr ⟨rfl, fun pid accounts => rfl⟩

/-- C4 witness: the one-byte buffer 1 decodes to Deposit and re-encodes to
itself. -/
theorem C4_instruction_decoder_total_witness :
    (∃ i, EscrowInstruction.try_from_slice [1] = some i ∧ encode_instruction i = [1]) ∨
    (EscrowInstruction.try_from_slice [1] = none ∧
     ∀ (pid : Pubkey) (accounts : List AccountInfo),
       process_instruction pid accounts [1] =
         (.error .InvalidInstructionData, accounts)) :=
  C4_instruction_decoder_total [1] (by decide)


set_option maxRecDepth 8000 in
/-- C10 witness: a concrete failing Withdraw (insufficient escrow balance)
leaves every account exactly as supplied. -/
theorem C10_withdraw_error_atomic_witness :
    (process_withdraw pidW [initW, takerW, escrowPoor]).2 =
      [initW, takerW, escrowPoor] :=
  C10_withdraw_error_atomic pidW [initW, takerW, escrowPoor] .InsufficientFunds
    (by decide)

/-- C5: a successful Initialize implies the escrow address equals the
derivation from (program identity, initializer identity), and the bytes
stored in the escrow account decode to the record
(true, initializer, taker, amount, bump of the derivation). -/
theorem C5_initialize_postcondition (pid : Pubkey) (i t e sp : AccountInfo)
    (rest res : List AccountInfo) (amount : Nat)
    (hok : process_initialize_run pid (i :: t :: e :: sp :: rest) amount = (.ok (), res))
    (hi : i.key.length = 32) (ht : t.key.length = 32) (ha : amount < 2 ^ 64) :
    (find_program_address [ESCROW_PDA_SEED, i.key] pid).1 = e.key ∧
    ∃ i2 acc, res = i2 :: t :: acc :: sp :: rest ∧ acc.key = e.key ∧
      EscrowState.try_from_slice acc.data =
        some ⟨true, i.key, t.key, amount,
              (find_program_address [ESCROW_PDA_SEED, i.key] pid).2⟩ := by
  simp only [process_initialize_run] at hok
  split at hok
  · simp at hok
  split at hok
  · simp at hok
  next hpda =>
  rw [not_not] at hpda
  refine ⟨hpda, ?_⟩
  split at hok
  · simp at hok
  next i2 e2 hca =>
  split at hok
  · simp at hok
  next data2 hser =>
  unfold create_account at hca
  split at hca
  · simp at hca
  split at hca
  · simp at hca
  rw [Except.ok.injEq, Prod.mk.injEq] at hca
  obtain ⟨hca1, hca2⟩ := hca
  unfold serialize_into at hser
  split at hser
  next hlen =>
    rw [Option.some.injEq] at hser
    rw [Prod.mk.injEq] at hok
    obtain ⟨-, hres⟩ := hok
    refine ⟨i2, { e2 with data := data2 }, hres.symm, ?_, ?_⟩
    · rw [← hca2]
    · have hserlen : (EscrowState.serialize
          ⟨true, i.key, t.key, amount,
           (find_program_address [ESCROW_PDA_SEED, i.key] pid).2⟩).length = 74 := by
        simp [EscrowState.serialize, u64ToLEBytes, hi, ht]
      have hdata : data2 = EscrowState.serialize
          ⟨true, i.key, t.key, amount,
           (find_program_address [ESCROW_PDA_SEED, i.key] pid).2⟩ := by
        rw [← hser, ← hca2]
        simp [hserlen, ESCROW_STATE_LEN]
      rw [hdata]
      exact try_from_slice_serialize _ hi ht ha
  · simp at hser

set_option maxRecDepth 8000 in
/-- C5 witness: a concrete successful Initialize at the derived address. -/
theorem C5_initialize_postcondition_witness :
    (find_program_address [ESCROW_PDA_SEED, initRich.key] pidW).1 = escrowFresh.key ∧
    ∃ i2 acc,
      (process_initialize_run pidW [initRich, takerW, escrowFresh, sysW] 500).2 =
        i2 :: takerW :: acc :: sysW :: [] ∧ acc.key = escrowFresh.key ∧
      EscrowState.try_from_slice acc.data =
        some ⟨true, initRich.key, takerW.key, 500,
              (find_program_address [ESCROW_PDA_SEED, initRich.key] pidW).2⟩ :=
  C5_initialize_postcondition pidW initRich takerW escrowFresh sysW []
    (process_initialize_run pidW [initRich, takerW, escrowFresh, sysW] 500).2 500
    (by decide) (by decide) (by decide) (by norm_num)

end Escrow
